import Mathlib

/-!
Shallow embedding of the muscle-engagement analysis engine of the
workout-analysis repository (src/utils/muscleGroups.ts and
src/utils/workoutAnalysis.ts, current revision), together with proofs of
the specification claims about it.

Modelling conventions:
* Calendar dates are integers (day numbers); the ambient "current date"
  (`new Date()` in the source) is passed explicitly as a `today` parameter.
  Date comparisons in the source (`<`, `>`) become integer comparisons at
  calendar-day granularity, matching the `YYYY-MM-DD` date strings the
  application stores.
* JavaScript numbers are modelled as `ℚ` (exact arithmetic); rep counts
  and the exercise counter are `ℕ`.
* A JavaScript `Map` whose keys are fixed at initialization is modelled as
  an association list in insertion order; in-place mutation of a stat
  object becomes a pointwise functional update of the list.
* `forEach` loops that push at most one element per iteration are
  translated to `List.filterMap`; stateful accumulation loops become
  `List.foldl`.
* `Array.prototype.sort` (stable, by the ECMAScript specification) with
  the source's comparator is modelled by `List.insertionSort` with the
  total preorder induced by that comparator.
-/

/-- The `MuscleGroup` union type of muscleGroups.ts (18 members, `neck`
included). -/
inductive MuscleGroup : Type
  | chest
  | back
  | shoulders
  | biceps
  | triceps
  | forearms
  | abdominals
  | quadriceps
  | hamstrings
  | glutes
  | calves
  | traps
  | lats
  | middleBack
  | lowerBack
  | adductors
  | abductors
  | neck
deriving DecidableEq, Repr

/-- The string value of a `MuscleGroup` member (the TypeScript type is a
union of these string literals; used where the source interpolates the
group into text). -/
def MuscleGroup.jsName : MuscleGroup → String
  | .chest => "chest"
  | .back => "back"
  | .shoulders => "shoulders"
  | .biceps => "biceps"
  | .triceps => "triceps"
  | .forearms => "forearms"
  | .abdominals => "abdominals"
  | .quadriceps => "quadriceps"
  | .hamstrings => "hamstrings"
  | .glutes => "glutes"
  | .calves => "calves"
  | .traps => "traps"
  | .lats => "lats"
  | .middleBack => "middle back"
  | .lowerBack => "lower back"
  | .adductors => "adductors"
  | .abductors => "abductors"
  | .neck => "neck"

/-- The alias table `muscleGroupMap` of muscleGroups.ts, as an association
list in the source's key-insertion order (JavaScript object literals
preserve string-key insertion order, which `Object.entries` reproduces). -/
def muscleGroupMap : List (String × MuscleGroup) :=
  [ ("chest", .chest),
    ("pectorals", .chest),
    ("pecs", .chest),
    ("back", .back),
    ("lats", .lats),
    ("latissimus dorsi", .lats),
    ("middle back", .middleBack),
    ("lower back", .lowerBack),
    ("upper back", .middleBack),
    ("shoulders", .shoulders),
    ("shoulder", .shoulders),
    ("deltoids", .shoulders),
    ("delts", .shoulders),
    ("anterior deltoid", .shoulders),
    ("posterior deltoid", .shoulders),
    ("lateral deltoid", .shoulders),
    ("biceps", .biceps),
    ("bicep", .biceps),
    ("triceps", .triceps),
    ("tricep", .triceps),
    ("forearms", .forearms),
    ("forearm", .forearms),
    ("abdominals", .abdominals),
    ("abs", .abdominals),
    ("abdominal", .abdominals),
    ("core", .abdominals),
    ("quadriceps", .quadriceps),
    ("quads", .quadriceps),
    ("quad", .quadriceps),
    ("hamstrings", .hamstrings),
    ("hamstring", .hamstrings),
    ("hams", .hamstrings),
    ("glutes", .glutes),
    ("glute", .glutes),
    ("gluteal", .glutes),
    ("calves", .calves),
    ("calf", .calves),
    ("gastrocnemius", .calves),
    ("soleus", .calves),
    ("traps", .traps),
    ("trapezius", .traps),
    ("trap", .traps),
    ("adductors", .adductors),
    ("adductor", .adductors),
    ("abductors", .abductors),
    ("abductor", .abductors),
    ("neck", .neck) ]

/-- `MAJOR_MUSCLE_GROUPS` of muscleGroups.ts: the 17 canonical groups used
to initialize the stats map (`neck` is absent). -/
def MAJOR_MUSCLE_GROUPS : List MuscleGroup :=
  [ .chest, .back, .shoulders, .biceps, .triceps, .forearms, .abdominals,
    .quadriceps, .hamstrings, .glutes, .calves, .traps, .lats,
    .middleBack, .lowerBack, .adductors, .abductors ]

/-- One character list is a prefix of another (Boolean, structural). -/
def charPrefix : List Char → List Char → Bool
  | [], _ => true
  | _ :: _, [] => false
  | a :: as, b :: bs => a == b && charPrefix as bs

/-- One character list occurs contiguously inside another (Boolean,
structural). -/
def charInfix (sub : List Char) : List Char → Bool
  | [] => sub.isEmpty
  | c :: tail => charPrefix sub (c :: tail) || charInfix sub tail

/-- JavaScript `s.includes(sub)`: `sub` occurs as a contiguous substring of
`s`. -/
def jsIncludes (s sub : String) : Bool :=
  charInfix sub.data s.data

/-- JavaScript `s.toLowerCase()`, modelled characterwise (all muscle names
in the data are ASCII). -/
def jsToLower (s : String) : String :=
  ⟨s.data.map Char.toLower⟩

/-- JavaScript `s.trim()`: strip leading and trailing whitespace. -/
def jsTrim (s : String) : String :=
  ⟨((s.data.dropWhile Char.isWhitespace).reverse.dropWhile
      Char.isWhitespace).reverse⟩

/-- `normalizeMuscleGroup` of muscleGroups.ts: lower-case and trim the
input, try a direct alias-table lookup, then fall back to substring
matching against every alias key in table order (first match wins). -/
def normalizeMuscleGroup (muscleName : String) : Option MuscleGroup :=
  let normalized := jsTrim (jsToLower muscleName)
  match (muscleGroupMap.find? (fun p => p.1 == normalized)).map Prod.snd with
  | some mg => some mg
  | none =>
    match muscleGroupMap.find?
        (fun p => jsIncludes normalized p.1 || jsIncludes p.1 normalized) with
    | some p => some p.2
    | none => none

/-- `getMuscleGroupsFromExercise` of muscleGroups.ts: normalize every entry
of the primary and secondary muscle lists, discarding non-matches and
keeping order and multiplicity. -/
def getMuscleGroupsFromExercise (primaryMuscles secondaryMuscles : List String) :
    List MuscleGroup × List MuscleGroup :=
  (primaryMuscles.filterMap normalizeMuscleGroup,
   secondaryMuscles.filterMap normalizeMuscleGroup)

/-- The `Exercise` interface of types/workout.ts. -/
structure Exercise : Type where
  category : String
  equipment : Option String
  name : String
  primaryMuscles : List String
  secondaryMuscles : List String
  instructions : Option (List String)
deriving DecidableEq, Repr

/-- The `Set` interface of types/workout.ts (a logged set of an exercise);
named `SetEntry` here because `Set` is taken in Lean. -/
structure SetEntry : Type where
  reps : Nat
  weight : ℚ
deriving DecidableEq, Repr

/-- The `WorkoutExercise` interface of types/workout.ts: an exercise
snapshot plus its logged sets. -/
structure WorkoutExercise : Type where
  category : String
  equipment : Option String
  name : String
  primaryMuscles : List String
  secondaryMuscles : List String
  instructions : Option (List String)
  sets : List SetEntry
deriving DecidableEq, Repr

/-- The `Workout` interface of types/workout.ts; `date` is a calendar-day
number. -/
structure Workout : Type where
  id : Int
  date : Int
  exercises : List WorkoutExercise
deriving DecidableEq, Repr

/-- The `MuscleGroupStats` interface of types/workout.ts.  The `workouts`
field counts engaging exercises (the source comment: "Count exercises
(keeping field name as workouts for compatibility)"). -/
structure MuscleGroupStats : Type where
  muscleGroup : MuscleGroup
  engagementCount : ℚ
  lastWorkedDate : Option Int
  workouts : Nat
deriving DecidableEq, Repr

/-- The `Suggestion` interface of types/workout.ts. -/
structure Suggestion : Type where
  muscleGroup : MuscleGroup
  exercises : List Exercise
  reason : String
deriving DecidableEq, Repr

/-- The `TimePeriod` type of types/workout.ts: the closed union 7 | 14 | 30. -/
inductive TimePeriod : Type
  | d7
  | d14
  | d30
deriving DecidableEq, Repr

/-- Number of days denoted by a `TimePeriod` value. -/
def TimePeriod.days : TimePeriod → Int
  | .d7 => 7
  | .d14 => 14
  | .d30 => 30

/-- The stats map of `analyzeMuscleGroups`: a JavaScript `Map` in insertion
order, with keys fixed at initialization. -/
abbrev StatsMap : Type := List (MuscleGroup × MuscleGroupStats)

/-- `stats.get(mg)` on the stats map. -/
def statsGet (stats : StatsMap) (mg : MuscleGroup) : Option MuscleGroupStats :=
  (stats.find? (fun p => p.1 == mg)).map Prod.snd

/-- In-place mutation of the stat object stored under `mg`: the entry for
`mg` is updated by `f`, the rest of the map is untouched. -/
def statsUpdate (stats : StatsMap) (mg : MuscleGroup)
    (f : MuscleGroupStats → MuscleGroupStats) : StatsMap :=
  stats.map (fun p => if p.1 = mg then (p.1, f p.2) else p)

/-- `exerciseMuscles.add(mg)` on the per-exercise `Set<MuscleGroup>`. -/
def addTouched (mg : MuscleGroup) (t : List MuscleGroup) : List MuscleGroup :=
  if mg ∈ t then t else mg :: t

/-- The last-worked-date update of workoutAnalysis.ts: store the workout
date when no date is stored yet or the workout date is strictly later. -/
def updateLast (old : Option Int) (d : Int) : Option Int :=
  match old with
  | none => some d
  | some o => if o < d then some d else some o

/-- The primary-muscle loop body of `analyzeMuscleGroups` (second loop
argument is the muscle group being visited): add the full engagement
value, count the exercise unconditionally, record the touch, and update
the last-worked date.  A muscle group absent from the map (only `neck`)
is skipped. -/
def processPrimary (v : ℚ) (d : Int) (st : StatsMap × List MuscleGroup)
    (mg : MuscleGroup) : StatsMap × List MuscleGroup :=
  match statsGet st.1 mg with
  | none => st
  | some _ =>
    (statsUpdate st.1 mg (fun stat =>
        { stat with
          engagementCount := stat.engagementCount + v
          workouts := stat.workouts + 1
          lastWorkedDate := updateLast stat.lastWorkedDate d }),
     addTouched mg st.2)

/-- The secondary-muscle loop body of `analyzeMuscleGroups`: add half the
engagement value, count the exercise only if the group was not already
touched by this exercise, record the touch, and update the last-worked
date. -/
def processSecondary (v : ℚ) (d : Int) (st : StatsMap × List MuscleGroup)
    (mg : MuscleGroup) : StatsMap × List MuscleGroup :=
  match statsGet st.1 mg with
  | none => st
  | some _ =>
    (statsUpdate st.1 mg (fun stat =>
        let stat1 := { stat with engagementCount := stat.engagementCount + v / 2 }
        let stat2 :=
          if mg ∈ st.2 then stat1 else { stat1 with workouts := stat1.workouts + 1 }
        { stat2 with lastWorkedDate := updateLast stat2.lastWorkedDate d }),
     addTouched mg st.2)

/-- `totalVolume` of an exercise: sum over its sets of reps times weight. -/
def exerciseVolume (ex : WorkoutExercise) : ℚ :=
  ex.sets.foldl (fun sum s => sum + (s.reps : ℚ) * s.weight) 0

/-- `engagementValue` of an exercise: the volume normalized by 1000 when
positive, otherwise the flat fallback 1.0. -/
def engagementValue (ex : WorkoutExercise) : ℚ :=
  let normalizedVolume := exerciseVolume ex / 1000
  if 0 < normalizedVolume then normalizedVolume else 1

/-- The per-exercise body of `analyzeMuscleGroups`: classify the muscles,
compute the engagement value, then run the primary loop and the secondary
loop over a fresh empty `exerciseMuscles` set. -/
def processExercise (d : Int) (ex : WorkoutExercise) (stats : StatsMap) :
    StatsMap :=
  let pm := getMuscleGroupsFromExercise ex.primaryMuscles ex.secondaryMuscles
  let v := engagementValue ex
  let st1 := pm.1.foldl (processPrimary v d) (stats, [])
  let st2 := pm.2.foldl (processSecondary v d) st1
  st2.1

/-- The per-workout body of `analyzeMuscleGroups`: skip the workout when
its date is strictly before the cutoff, otherwise process its exercises
in order. -/
def processWorkout (cutoff : Int) (stats : StatsMap) (w : Workout) : StatsMap :=
  if w.date < cutoff then stats
  else w.exercises.foldl (fun s ex => processExercise w.date ex s) stats

/-- The initial stats map of `analyzeMuscleGroups`: one zero entry per
major muscle group, in `MAJOR_MUSCLE_GROUPS` order. -/
def initStats : StatsMap :=
  MAJOR_MUSCLE_GROUPS.map (fun mg =>
    (mg, { muscleGroup := mg, engagementCount := 0, lastWorkedDate := none,
           workouts := 0 }))

/-- `analyzeMuscleGroups` of workoutAnalysis.ts; `today` is the ambient
current date (`new Date()`), and the cutoff is `today` minus the window. -/
def analyzeMuscleGroups (today : Int) (workouts : List Workout)
    (timePeriod : TimePeriod) : StatsMap :=
  workouts.foldl (processWorkout (today - timePeriod.days)) initStats

/-- `getUnderworkedMuscles` of workoutAnalysis.ts: the groups whose stat
has no last-worked date or one strictly before `today - 7`, in map
iteration order. -/
def getUnderworkedMuscles (today : Int) (stats : StatsMap) : List MuscleGroup :=
  let sevenDaysAgo := today - 7
  stats.filterMap (fun p =>
    match p.2.lastWorkedDate with
    | none => some p.1
    | some lastWorked =>
      if lastWorked < sevenDaysAgo then some p.1 else none)

/-- Strict characterwise lexicographic comparison, the model of the
ascending name order produced by the source's
`a.name.localeCompare(b.name)` comparator leg. -/
def charListLt : List Char → List Char → Bool
  | [], [] => false
  | [], _ :: _ => true
  | _ :: _, [] => false
  | a :: as, b :: bs => a < b || (a == b && charListLt as bs)

/-- `a` comes strictly before `b` under the sort comparator of
`generateSuggestions`: higher `_priority` first, then name ascending. -/
def candBefore (a b : Exercise × Nat) : Bool :=
  if a.2 ≠ b.2 then b.2 < a.2 else charListLt a.1.name.data b.1.name.data

/-- The total preorder realized by the source's stable sort: `a` may be
placed at or before `b` exactly when `b` does not come strictly before
`a`. -/
def candLe (a b : Exercise × Nat) : Prop :=
  candBefore b a = false

instance : DecidableRel candLe := fun a b => by
  unfold candLe; infer_instance

/-- The stable sort of the qualifying-exercise list (JavaScript
`Array.prototype.sort` is stable; `List.insertionSort` with the induced
total preorder realizes it). -/
def sortCands (l : List (Exercise × Nat)) : List (Exercise × Nat) :=
  l.insertionSort candLe

/-- The inner `exerciseDB.forEach` of `generateSuggestions`: keep the
exercises whose normalized primary or secondary muscles contain the
target group, tagging each with its `_priority` (2 when primary, else 1). -/
def matchingExercisesFor (muscleGroup : MuscleGroup) (exerciseDB : List Exercise) :
    List (Exercise × Nat) :=
  exerciseDB.filterMap (fun exercise =>
    let pm := getMuscleGroupsFromExercise exercise.primaryMuscles
      exercise.secondaryMuscles
    let isPrimary := muscleGroup ∈ pm.1
    let isSecondary := muscleGroup ∈ pm.2
    if isPrimary ∨ isSecondary then
      some (exercise, if isPrimary then 2 else 1)
    else none)

/-- The templated reason string of a `Suggestion`. -/
def suggestionReason (mg : MuscleGroup) : String :=
  "You haven't worked your " ++ mg.jsName ++
    " in the last week. Try these exercises:"

/-- `generateSuggestions` of workoutAnalysis.ts: for each target group in
input order, collect and tag the qualifying exercises, sort them by
priority descending then name ascending, truncate to `limitPerGroup`,
strip the priority tag, and emit a `Suggestion` only when the result is
nonempty. -/
def generateSuggestions (underworkedMuscles : List MuscleGroup)
    (exerciseDB : List Exercise) (limitPerGroup : Nat) : List Suggestion :=
  underworkedMuscles.filterMap (fun muscleGroup =>
    let matchingExercises := matchingExercisesFor muscleGroup exerciseDB
    let topExercises :=
      ((sortCands matchingExercises).take limitPerGroup).map Prod.fst
    if 0 < topExercises.length then
      some { muscleGroup := muscleGroup, exercises := topExercises,
             reason := suggestionReason muscleGroup }
    else none)

/-- The hot/warm threshold table of `getHeatmapIntensity` (current
revision): `{7: {hot: 6, warm: 2}, 14: {hot: 12, warm: 4},
30: {hot: 24, warm: 8}}`. -/
def heatmapThresholds : TimePeriod → ℚ × ℚ
  | .d7 => (6, 2)
  | .d14 => (12, 4)
  | .d30 => (24, 8)

/-- `getHeatmapIntensity` of workoutAnalysis.ts: the boundary-inclusive
step function from engagement count to intensity. -/
def getHeatmapIntensity (stat : MuscleGroupStats) (timePeriod : TimePeriod) : ℚ :=
  let threshold := heatmapThresholds timePeriod
  let engagement := stat.engagementCount
  if engagement ≥ threshold.1 then 1
  else if engagement ≥ threshold.2 then 6 / 10
  else if engagement > 0 then 3 / 10
  else 0

/-- `getHeatmapColor` of workoutAnalysis.ts: intensity bands to hex
colors. -/
def getHeatmapColor (intensity : ℚ) : String :=
  if intensity ≥ 8 / 10 then "#ef4444"
  else if intensity ≥ 5 / 10 then "#f97316"
  else if intensity ≥ 2 / 10 then "#eab308"
  else "#3b82f6"

/-! ### Normal forms for the aggregation loops

The stats map has a fixed key set, so each loop of `analyzeMuscleGroups`
acts pointwise on the entries.  The definitions below give those pointwise
actions in closed form; the lemmas established later prove the loops equal
to them. -/

/-- Pointwise action on a stats map: every entry's value is rewritten as a
function of its own key and value. -/
def mapStats (h : MuscleGroup → MuscleGroupStats → MuscleGroupStats)
    (stats : StatsMap) : StatsMap :=
  stats.map (fun p => (p.1, h p.1 p.2))

/-- Closed form of `n` passes of the primary-muscle loop body over one
stat. -/
def primEffN (v : ℚ) (d : Int) (n : Nat) (stat : MuscleGroupStats) :
    MuscleGroupStats :=
  { stat with
    engagementCount := stat.engagementCount + n * v
    workouts := stat.workouts + n
    lastWorkedDate :=
      if 0 < n then updateLast stat.lastWorkedDate d else stat.lastWorkedDate }

/-- Closed form of `n` passes of the secondary-muscle loop body over one
stat, where `inTouched` records whether the group was already in the
per-exercise touched set before the secondary loop ran. -/
def secEffN (v : ℚ) (d : Int) (n : Nat) (inTouched : Bool)
    (stat : MuscleGroupStats) : MuscleGroupStats :=
  { stat with
    engagementCount := stat.engagementCount + n * (v / 2)
    workouts := stat.workouts + (if 0 < n ∧ inTouched = false then 1 else 0)
    lastWorkedDate :=
      if 0 < n then updateLast stat.lastWorkedDate d else stat.lastWorkedDate }

/-- Closed form of the whole per-exercise step on the stat of one muscle
group that is a key of the map. -/
def exEff (d : Int) (ex : WorkoutExercise) (k : MuscleGroup)
    (s : MuscleGroupStats) : MuscleGroupStats :=
  let pm := getMuscleGroupsFromExercise ex.primaryMuscles ex.secondaryMuscles
  let v := engagementValue ex
  secEffN v d (pm.2.count k) (decide (k ∈ pm.1)) (primEffN v d (pm.1.count k) s)

/-- Closed form of a whole included workout on the stat of one muscle
group. -/
def wEff (w : Workout) (k : MuscleGroup) (s : MuscleGroupStats) :
    MuscleGroupStats :=
  w.exercises.foldl (fun s ex => exEff w.date ex k s) s

/-- The touched-set result of a loop over `ms`, with the key set of
`stats` deciding which visits stick. -/
def touchedP (stats : StatsMap) (ms : List MuscleGroup)
    (t : List MuscleGroup) : List MuscleGroup :=
  ms.foldl (fun t mg =>
    if (statsGet stats mg).isSome then addTouched mg t else t) t

/-- The commutative delta summarizing the action of one exercise (or one
workout) on one stat: an engagement increment, an exercise-count
increment, and a conditional last-worked-date raise. -/
structure SDelta : Type where
  de : ℚ
  dw : Nat
  touch : Bool
  d : Int

/-- Apply a delta to a stat. -/
def applyD (δ : SDelta) (s : MuscleGroupStats) : MuscleGroupStats :=
  { s with
    engagementCount := s.engagementCount + δ.de
    workouts := s.workouts + δ.dw
    lastWorkedDate :=
      if δ.touch then updateLast s.lastWorkedDate δ.d else s.lastWorkedDate }

/-- The delta of one exercise on one muscle group. -/
def exDelta (d : Int) (ex : WorkoutExercise) (k : MuscleGroup) : SDelta :=
  let pm := getMuscleGroupsFromExercise ex.primaryMuscles ex.secondaryMuscles
  let v := engagementValue ex
  { de := (pm.1.count k : ℚ) * v + (pm.2.count k : ℚ) * (v / 2)
    dw := pm.1.count k +
      (if 0 < pm.2.count k ∧ decide (k ∈ pm.1) = false then 1 else 0)
    touch := decide (0 < pm.1.count k ∨ 0 < pm.2.count k)
    d := d }

/-- Whether an exercise qualifies for a target muscle group: the group is
among its normalized primary or secondary muscles. -/
def qualifies (mg : MuscleGroup) (exercise : Exercise) : Bool :=
  decide (mg ∈ (getMuscleGroupsFromExercise exercise.primaryMuscles
      exercise.secondaryMuscles).1
    ∨ mg ∈ (getMuscleGroupsFromExercise exercise.primaryMuscles
      exercise.secondaryMuscles).2)

/-- The `_priority` tag `generateSuggestions` attaches to a qualifying
exercise: 2 for primary membership, 1 for secondary-only membership. -/
def exercisePriority (mg : MuscleGroup) (exercise : Exercise) : Nat :=
  if mg ∈ (getMuscleGroupsFromExercise exercise.primaryMuscles
      exercise.secondaryMuscles).1 then 2 else 1

/-! Concrete fixtures used by witnesses and counterexamples. -/

/-- Catalog fixture: a primary-chest exercise. -/
def benchExercise : Exercise :=
  ⟨"strength", none, "Bench Press", ["chest"], ["triceps"], none⟩

/-- Catalog fixture: a primary-chest exercise with a later name. -/
def flyeExercise : Exercise :=
  ⟨"strength", none, "Chest Flye", ["pecs"], [], none⟩

/-- Catalog fixture: a secondary-chest exercise. -/
def dipExercise : Exercise :=
  ⟨"strength", none, "Dip", ["triceps"], ["chest"], none⟩

/-- Workout-exercise fixture: one set of 10 reps at weight 100. -/
def benchW : WorkoutExercise :=
  ⟨"strength", none, "Bench Press", ["chest"], ["triceps"], none, [⟨10, 100⟩]⟩

/-- Workout-exercise fixture whose primary list names chest twice through
different aliases, with no logged sets. -/
def dupChestEx : WorkoutExercise :=
  ⟨"strength", none, "Chest Double", ["chest", "pecs"], [], none, []⟩

/-- Workout-exercise fixture listing chest both as primary and as
secondary, with no logged sets. -/
def bothListsEx : WorkoutExercise :=
  ⟨"strength", none, "Chest Both", ["chest"], ["chest"], none, []⟩

/-- A zeroed chest stat. -/
def statChest0 : MuscleGroupStats := ⟨.chest, 0, none, 0⟩

/-- A small stats-map fixture: chest last worked on day 0, back on day 9,
lats never. -/
def statsExample : StatsMap :=
  [(.chest, ⟨.chest, 5, some 0, 3⟩),
   (.back, ⟨.back, 1, some 9, 1⟩),
   (.lats, ⟨.lats, 0, none, 0⟩)]

/-! ### Helper lemmas -/

theorem statsGet_isSome_of_mem (stats : StatsMap)
    (p : MuscleGroup × MuscleGroupStats) (hp : p ∈ stats) :
    (statsGet stats p.1).isSome := by
  unfold statsGet
  cases hfind : stats.find? (fun q => q.1 == p.1) with
  | none =>
    exfalso
    have := List.find?_eq_none.1 hfind p hp
    simp at this
  | some q => simp [hfind]

theorem statsGet_none_ne (stats : StatsMap) (mg : MuscleGroup)
    (h : statsGet stats mg = none) :
    ∀ p ∈ stats, p.1 ≠ mg := by
  intro p hp
  unfold statsGet at h
  cases hfind : stats.find? (fun q => q.1 == mg) with
  | some q => rw [hfind] at h; simp at h
  | none =>
    have := List.find?_eq_none.1 hfind p hp
    simpa using this

theorem statsUpdate_eq_mapStats (stats : StatsMap) (mg : MuscleGroup)
    (f : MuscleGroupStats → MuscleGroupStats) :
    statsUpdate stats mg f
      = mapStats (fun k s => if k = mg then f s else s) stats := by
  unfold statsUpdate mapStats
  apply List.map_congr_left
  intro p _
  by_cases h : p.1 = mg <;> simp [h]

theorem mapStats_comp (g h : MuscleGroup → MuscleGroupStats → MuscleGroupStats)
    (stats : StatsMap) :
    mapStats h (mapStats g stats) = mapStats (fun k s => h k (g k s)) stats := by
  unfold mapStats
  rw [List.map_map]
  rfl

theorem mapStats_ext (h h' : MuscleGroup → MuscleGroupStats → MuscleGroupStats)
    (stats : StatsMap) (he : ∀ k s, h k s = h' k s) :
    mapStats h stats = mapStats h' stats := by
  unfold mapStats
  apply List.map_congr_left
  intro p _
  rw [he]

theorem mapStats_congr (h h' : MuscleGroup → MuscleGroupStats → MuscleGroupStats)
    (stats : StatsMap) (he : ∀ p ∈ stats, h p.1 p.2 = h' p.1 p.2) :
    mapStats h stats = mapStats h' stats := by
  unfold mapStats
  apply List.map_congr_left
  intro p hp
  rw [he p hp]

theorem mapStats_id (stats : StatsMap) : mapStats (fun _ s => s) stats = stats := by
  unfold mapStats
  simp

theorem statsGet_mapStats (h : MuscleGroup → MuscleGroupStats → MuscleGroupStats)
    (stats : StatsMap) (k : MuscleGroup) :
    statsGet (mapStats h stats) k = (statsGet stats k).map (h k) := by
  induction stats with
  | nil => rfl
  | cons p rest ih =>
    unfold mapStats statsGet at *
    by_cases hk : p.1 = k
    · simp [List.find?_cons, hk]
    · simp only [List.map_cons, List.find?_cons]
      have hb : (p.1 == k) = false := by simp [hk]
      simp only [hb, cond_false]
      exact ih

theorem keys_mapStats (h : MuscleGroup → MuscleGroupStats → MuscleGroupStats)
    (stats : StatsMap) :
    (mapStats h stats).map Prod.fst = stats.map Prod.fst := by
  unfold mapStats
  rw [List.map_map]
  rfl

theorem mem_addTouched (k mg : MuscleGroup) (t : List MuscleGroup) :
    k ∈ addTouched mg t ↔ k = mg ∨ k ∈ t := by
  unfold addTouched
  by_cases h : mg ∈ t
  · simp only [if_pos h]
    constructor
    · exact fun hk => Or.inr hk
    · rintro (rfl | hk)
      · exact h
      · exact hk
  · simp [if_neg h]

theorem updateLast_idem (l : Option Int) (d : Int) :
    updateLast (updateLast l d) d = updateLast l d := by
  cases l with
  | none => simp [updateLast]
  | some o =>
    unfold updateLast
    by_cases h : o < d <;> simp [h]

theorem updateLast_comm (l : Option Int) (d1 d2 : Int) :
    updateLast (updateLast l d1) d2 = updateLast (updateLast l d2) d1 := by
  cases l with
  | none =>
    unfold updateLast
    by_cases h1 : d1 < d2 <;> by_cases h2 : d2 < d1 <;> simp [h1, h2]
    · omega
    · omega
  | some o =>
    unfold updateLast
    by_cases h1 : o < d1 <;> by_cases h2 : o < d2 <;>
      simp only [h1, h2, if_pos, if_neg, if_true, if_false] <;>
      by_cases h3 : d1 < d2 <;> by_cases h4 : d2 < d1 <;>
      simp [h1, h2, h3, h4] <;> omega

theorem primEffN_zero (v : ℚ) (d : Int) (s : MuscleGroupStats) :
    primEffN v d 0 s = s := by
  simp [primEffN]

theorem primEffN_succ (v : ℚ) (d : Int) (n : Nat) (s : MuscleGroupStats) :
    primEffN v d n
      { s with
        engagementCount := s.engagementCount + v
        workouts := s.workouts + 1
        lastWorkedDate := updateLast s.lastWorkedDate d }
      = primEffN v d (n + 1) s := by
  unfold primEffN
  simp only [MuscleGroupStats.mk.injEq]
  refine ⟨trivial, ?_, ?_, ?_⟩
  · push_cast
    ring
  · by_cases h : 0 < n <;> simp [h, updateLast_idem]
  · omega

theorem secEffN_zero (v : ℚ) (d : Int) (b : Bool) (s : MuscleGroupStats) :
    secEffN v d 0 b s = s := by
  simp [secEffN]

theorem secEffN_succ (v : ℚ) (d : Int) (n : Nat) (c : Prop) [Decidable c]
    (s : MuscleGroupStats) :
    secEffN v d n true
      (let stat1 := { s with engagementCount := s.engagementCount + v / 2 }
       let stat2 :=
         if c then stat1 else { stat1 with workouts := stat1.workouts + 1 }
       { stat2 with lastWorkedDate := updateLast stat2.lastWorkedDate d })
      = secEffN v d (n + 1) (decide c) s := by
  unfold secEffN
  by_cases hc : c <;>
    simp only [hc, if_pos, if_neg, if_true, if_false,
      MuscleGroupStats.mk.injEq] <;>
    refine ⟨trivial, ?_, ?_, ?_⟩
  · push_cast
    ring
  · by_cases h : 0 < n <;> simp [h, updateLast_idem]
  · simp [hc]
  · push_cast
    ring
  · by_cases h : 0 < n <;> simp [h, updateLast_idem]
  · simp [hc]

theorem applyD_comm (a b : SDelta) (s : MuscleGroupStats) :
    applyD a (applyD b s) = applyD b (applyD a s) := by
  unfold applyD
  simp only [MuscleGroupStats.mk.injEq]
  refine ⟨trivial, by ring, ?_, by omega⟩
  cases ha : a.touch <;> cases hb : b.touch <;> simp [updateLast_comm]

theorem exEff_applyD (d : Int) (ex : WorkoutExercise) (k : MuscleGroup)
    (s : MuscleGroupStats) :
    exEff d ex k s = applyD (exDelta d ex k) s := by
  unfold exEff exDelta applyD secEffN primEffN
  simp only [MuscleGroupStats.mk.injEq]
  refine ⟨trivial, by ring, ?_, by omega⟩
  by_cases h1 :
      0 < ((getMuscleGroupsFromExercise ex.primaryMuscles ex.secondaryMuscles).1.count k) <;>
    by_cases h2 :
      0 < ((getMuscleGroupsFromExercise ex.primaryMuscles ex.secondaryMuscles).2.count k) <;>
    simp [h1, h2, updateLast_idem]

theorem touchedP_mapStats
    (h : MuscleGroup → MuscleGroupStats → MuscleGroupStats) (stats : StatsMap) :
    ∀ (ms : List MuscleGroup) (t : List MuscleGroup),
      touchedP (mapStats h stats) ms t = touchedP stats ms t := by
  intro ms
  induction ms with
  | nil => intro t; rfl
  | cons mg ms ih =>
    intro t
    unfold touchedP at *
    rw [List.foldl_cons, List.foldl_cons]
    have hsame : (statsGet (mapStats h stats) mg).isSome
        = (statsGet stats mg).isSome := by
      rw [statsGet_mapStats]
      cases statsGet stats mg <;> simp
    rw [hsame]
    by_cases hs : (statsGet stats mg).isSome <;> simp only [hs, if_pos, if_neg,
      if_true, if_false, Bool.false_eq_true] <;> exact ih _

theorem mem_touchedP (stats : StatsMap) (k : MuscleGroup) :
    ∀ (ms : List MuscleGroup) (t : List MuscleGroup),
      k ∈ touchedP stats ms t
        ↔ k ∈ t ∨ (k ∈ ms ∧ (statsGet stats k).isSome) := by
  intro ms
  induction ms with
  | nil => intro t; simp [touchedP]
  | cons mg ms ih =>
    intro t
    unfold touchedP at *
    rw [List.foldl_cons]
    by_cases hs : (statsGet stats mg).isSome
    · rw [if_pos hs, ih]
      rw [mem_addTouched]
      by_cases hk : k = mg
      · subst hk
        simp [hs]
      · simp only [List.mem_cons]
        constructor
        · rintro ((rfl | hk') | hrest)
          · exact absurd rfl hk
          · exact Or.inl hk'
          · exact Or.inr ⟨Or.inr hrest.1, hrest.2⟩
        · rintro (hk' | ⟨(rfl | hms), hsome⟩)
          · exact Or.inl (Or.inr hk')
          · exact absurd rfl hk
          · exact Or.inr ⟨hms, hsome⟩
    · rw [if_neg hs, ih]
      constructor
      · rintro (ht | hrest)
        · exact Or.inl ht
        · exact Or.inr ⟨List.mem_cons_of_mem _ hrest.1, hrest.2⟩
      · rintro (ht | ⟨hmem, hsome⟩)
        · exact Or.inl ht
        · rcases List.mem_cons.1 hmem with rfl | hms
          · exact absurd hsome hs
          · exact Or.inr ⟨hms, hsome⟩

theorem primary_foldl (v : ℚ) (d : Int) :
    ∀ (P : List MuscleGroup) (stats : StatsMap) (t : List MuscleGroup),
      P.foldl (processPrimary v d) (stats, t)
        = (mapStats (fun k s => primEffN v d (P.count k) s) stats,
           touchedP stats P t) := by
  intro P
  induction P with
  | nil =>
    intro stats t
    simp only [List.foldl_nil, List.count_nil, touchedP]
    rw [mapStats_ext _ (fun _ s => s) _ (fun k s => primEffN_zero v d s)]
    rw [mapStats_id]
  | cons mg P ih =>
    intro stats t
    rw [List.foldl_cons]
    cases h : statsGet stats mg with
    | none =>
      have step : processPrimary v d (stats, t) mg = (stats, t) := by
        simp [processPrimary, h]
      rw [step, ih]
      simp only [Prod.mk.injEq]
      constructor
      · apply mapStats_congr
        intro p hp
        have hne : p.1 ≠ mg := statsGet_none_ne stats mg h p hp
        simp [List.count_cons, hne]
      · unfold touchedP
        rw [List.foldl_cons]
        rw [if_neg (by simp [h])]
    | some s0 =>
      have step : processPrimary v d (stats, t) mg
          = (statsUpdate stats mg (fun stat =>
              { stat with
                engagementCount := stat.engagementCount + v
                workouts := stat.workouts + 1
                lastWorkedDate := updateLast stat.lastWorkedDate d }),
             addTouched mg t) := by
        simp [processPrimary, h]
      rw [step, ih]
      simp only [Prod.mk.injEq]
      constructor
      · rw [statsUpdate_eq_mapStats, mapStats_comp]
        apply mapStats_ext
        intro k s
        by_cases hk : k = mg
        · subst hk
          rw [if_pos rfl, primEffN_succ, List.count_cons_self]
        · rw [if_neg hk]
          simp [List.count_cons, hk]
      · rw [statsUpdate_eq_mapStats, touchedP_mapStats]
        unfold touchedP
        rw [List.foldl_cons]
        rw [if_pos (by simp [h])]

theorem secondary_foldl (v : ℚ) (d : Int) :
    ∀ (S : List MuscleGroup) (stats : StatsMap) (t : List MuscleGroup),
      S.foldl (processSecondary v d) (stats, t)
        = (mapStats (fun k s => secEffN v d (S.count k) (decide (k ∈ t)) s) stats,
           touchedP stats S t) := by
  intro S
  induction S with
  | nil =>
    intro stats t
    simp only [List.foldl_nil, List.count_nil, touchedP]
    rw [mapStats_ext _ (fun _ s => s) _ (fun k s => secEffN_zero v d _ s)]
    rw [mapStats_id]
  | cons mg S ih =>
    intro stats t
    rw [List.foldl_cons]
    cases h : statsGet stats mg with
    | none =>
      have step : processSecondary v d (stats, t) mg = (stats, t) := by
        simp [processSecondary, h]
      rw [step, ih]
      simp only [Prod.mk.injEq]
      constructor
      · apply mapStats_congr
        intro p hp
        have hne : p.1 ≠ mg := statsGet_none_ne stats mg h p hp
        simp [List.count_cons, hne]
      · unfold touchedP
        rw [List.foldl_cons]
        rw [if_neg (by simp [h])]
    | some s0 =>
      have step : processSecondary v d (stats, t) mg
          = (statsUpdate stats mg (fun stat =>
              let stat1 :=
                { stat with engagementCount := stat.engagementCount + v / 2 }
              let stat2 :=
                if mg ∈ t then stat1
                else { stat1 with workouts := stat1.workouts + 1 }
              { stat2 with
                lastWorkedDate := updateLast stat2.lastWorkedDate d }),
             addTouched mg t) := by
        simp [processSecondary, h]
      rw [step, ih]
      simp only [Prod.mk.injEq]
      constructor
      · rw [statsUpdate_eq_mapStats, mapStats_comp]
        apply mapStats_ext
        intro k s
        by_cases hk : k = mg
        · subst hk
          rw [if_pos rfl]
          have htch : decide (k ∈ addTouched k t) = true := by
            simp [mem_addTouched]
          rw [htch, secEffN_succ v d _ (k ∈ t) s, List.count_cons_self]
        · rw [if_neg hk]
          have htch : decide (k ∈ addTouched mg t) = decide (k ∈ t) := by
            rw [decide_eq_decide]
            rw [mem_addTouched]
            simp [hk]
          rw [htch]
          simp [List.count_cons, hk]
      · rw [statsUpdate_eq_mapStats, touchedP_mapStats]
        unfold touchedP
        rw [List.foldl_cons]
        rw [if_pos (by simp [h])]

theorem processExercise_map (d : Int) (ex : WorkoutExercise) (stats : StatsMap) :
    processExercise d ex stats = mapStats (exEff d ex) stats := by
  unfold processExercise
  simp only
  rw [primary_foldl, secondary_foldl]
  dsimp only
  rw [mapStats_comp]
  apply mapStats_congr
  intro p hp
  unfold exEff
  simp only
  have htch : decide
      (p.1 ∈ touchedP stats
        (getMuscleGroupsFromExercise ex.primaryMuscles ex.secondaryMuscles).1 [])
      = decide
        (p.1 ∈ (getMuscleGroupsFromExercise ex.primaryMuscles
          ex.secondaryMuscles).1) := by
    rw [decide_eq_decide]
    rw [mem_touchedP]
    simp [statsGet_isSome_of_mem stats p hp]
  rw [htch]

theorem foldl_processExercise (d : Int) :
    ∀ (exs : List WorkoutExercise) (stats : StatsMap),
      exs.foldl (fun s ex => processExercise d ex s) stats
        = mapStats (fun k s => exs.foldl (fun s ex => exEff d ex k s) s) stats := by
  intro exs
  induction exs with
  | nil =>
    intro stats
    simp only [List.foldl_nil]
    rw [mapStats_id]
  | cons e exs ih =>
    intro stats
    rw [List.foldl_cons, processExercise_map, ih, mapStats_comp]
    simp only [List.foldl_cons]

theorem processWorkout_map (c : Int) (stats : StatsMap) (w : Workout) :
    processWorkout c stats w
      = if w.date < c then stats else mapStats (wEff w) stats := by
  unfold processWorkout wEff
  by_cases h : w.date < c
  · rw [if_pos h, if_pos h]
  · rw [if_neg h, if_neg h, foldl_processExercise]

theorem applyD_foldl (L : List SDelta) :
    ∀ (δ : SDelta) (s : MuscleGroupStats),
      L.foldl (fun s δ => applyD δ s) (applyD δ s)
        = applyD δ (L.foldl (fun s δ => applyD δ s) s) := by
  induction L with
  | nil => intro δ s; rfl
  | cons δ2 L ih =>
    intro δ s
    rw [List.foldl_cons, List.foldl_cons]
    rw [applyD_comm δ2 δ s]
    exact ih δ (applyD δ2 s)

theorem foldl_applyD_comm (L1 L2 : List SDelta) :
    ∀ (s : MuscleGroupStats),
      L2.foldl (fun s δ => applyD δ s) (L1.foldl (fun s δ => applyD δ s) s)
        = L1.foldl (fun s δ => applyD δ s) (L2.foldl (fun s δ => applyD δ s) s) := by
  induction L1 with
  | nil => intro s; rfl
  | cons δ L1 ih =>
    intro s
    rw [List.foldl_cons, ih (applyD δ s), applyD_foldl, List.foldl_cons]

theorem wEff_eq_applyD_foldl (w : Workout) (k : MuscleGroup)
    (s : MuscleGroupStats) :
    wEff w k s
      = (w.exercises.map (fun ex => exDelta w.date ex k)).foldl
          (fun s δ => applyD δ s) s := by
  unfold wEff
  rw [List.foldl_map]
  simp only [exEff_applyD]

theorem wEff_comm (w1 w2 : Workout) (k : MuscleGroup) (s : MuscleGroupStats) :
    wEff w1 k (wEff w2 k s) = wEff w2 k (wEff w1 k s) := by
  rw [wEff_eq_applyD_foldl, wEff_eq_applyD_foldl, wEff_eq_applyD_foldl,
    wEff_eq_applyD_foldl]
  exact foldl_applyD_comm _ _ s

theorem processWorkout_comm (c : Int) (stats : StatsMap) (w1 w2 : Workout) :
    processWorkout c (processWorkout c stats w1) w2
      = processWorkout c (processWorkout c stats w2) w1 := by
  simp only [processWorkout_map]
  by_cases h1 : w1.date < c <;> by_cases h2 : w2.date < c <;>
    simp only [h1, h2, if_pos, if_neg, if_true, if_false]
  rw [mapStats_comp, mapStats_comp]
  apply mapStats_ext
  intro k s
  exact wEff_comm w2 w1 k s

theorem foldl_perm_of_comm {α β : Type} (f : β → α → β)
    (H : ∀ b x y, f (f b x) y = f (f b y) x) :
    ∀ {l1 l2 : List α}, l1.Perm l2 → ∀ b, l1.foldl f b = l2.foldl f b := by
  intro l1 l2 h
  induction h with
  | nil => intro b; rfl
  | cons x _ ih =>
    intro b
    rw [List.foldl_cons, List.foldl_cons, ih]
  | swap x y l =>
    intro b
    rw [List.foldl_cons, List.foldl_cons, List.foldl_cons, List.foldl_cons, H]
  | trans _ _ ih1 ih2 =>
    intro b
    rw [ih1, ih2]

theorem keys_processWorkout (c : Int) (stats : StatsMap) (w : Workout) :
    (processWorkout c stats w).map Prod.fst = stats.map Prod.fst := by
  rw [processWorkout_map]
  by_cases h : w.date < c
  · rw [if_pos h]
  · rw [if_neg h, keys_mapStats]

theorem keys_foldl_processWorkout (c : Int) :
    ∀ (ws : List Workout) (stats : StatsMap),
      (ws.foldl (processWorkout c) stats).map Prod.fst = stats.map Prod.fst := by
  intro ws
  induction ws with
  | nil => intro stats; rfl
  | cons w ws ih =>
    intro stats
    rw [List.foldl_cons, ih, keys_processWorkout]

theorem charListLt_asymm :
    ∀ x y, charListLt x y = true → charListLt y x = false
  | [], [] => by simp [charListLt]
  | [], _ :: _ => by simp [charListLt]
  | _ :: _, [] => by simp [charListLt]
  | a :: as, b :: bs => by
    simp only [charListLt, Bool.or_eq_true, Bool.and_eq_true, beq_iff_eq,
      decide_eq_true_eq, Bool.or_eq_false_iff, Bool.and_eq_false_iff,
      decide_eq_false_iff_not]
    rintro (hab | ⟨rfl, hlt⟩)
    · refine ⟨not_lt_of_lt hab, Or.inl ?_⟩
      simp [ne_of_gt hab]
    · refine ⟨lt_irrefl a, Or.inr (charListLt_asymm as bs hlt)⟩

theorem charListLt_trichotomy :
    ∀ x y, charListLt x y = true ∨ x = y ∨ charListLt y x = true
  | [], [] => Or.inr (Or.inl rfl)
  | [], _ :: _ => Or.inl (by simp [charListLt])
  | _ :: _, [] => Or.inr (Or.inr (by simp [charListLt]))
  | a :: as, b :: bs => by
    rcases lt_trichotomy a b with h | rfl | h
    · left
      simp [charListLt, h]
    · rcases charListLt_trichotomy as bs with h' | rfl | h'
      · left
        simp [charListLt, h']
      · exact Or.inr (Or.inl rfl)
      · right
        right
        simp [charListLt, h']
    · right
      right
      simp [charListLt, h]

theorem charListLt_trans :
    ∀ x y z, charListLt x y = true → charListLt y z = true →
      charListLt x z = true
  | [], y, z => by
    cases y with
    | nil => simp [charListLt]
    | cons b bs =>
      cases z with
      | nil => simp [charListLt]
      | cons c cs => simp [charListLt]
  | a :: as, y, z => by
    cases y with
    | nil => simp [charListLt]
    | cons b bs =>
      cases z with
      | nil => simp [charListLt]
      | cons c cs =>
        simp only [charListLt, Bool.or_eq_true, Bool.and_eq_true, beq_iff_eq,
          decide_eq_true_eq]
        rintro (hab | ⟨rfl, h1⟩) (hbc | ⟨rfl, h2⟩)
        · exact Or.inl (lt_trans hab hbc)
        · exact Or.inl hab
        · exact Or.inl hbc
        · exact Or.inr ⟨rfl, charListLt_trans as bs cs h1 h2⟩

theorem charListLt_negtrans (x y z : List Char)
    (h1 : charListLt y x = false) (h2 : charListLt z y = false) :
    charListLt z x = false := by
  by_cases h : charListLt z x = true
  · exfalso
    rcases charListLt_trichotomy x y with hxy | rfl | hyx
    · have hzy := charListLt_trans z x y h hxy
      simp [hzy] at h2
    · simp [h] at h2
    · simp [hyx] at h1
  · simpa using h

theorem candLe_iff (a b : Exercise × Nat) :
    candLe a b
      ↔ b.2 < a.2
        ∨ (a.2 = b.2 ∧ charListLt b.1.name.data a.1.name.data = false) := by
  unfold candLe candBefore
  by_cases hp : b.2 = a.2
  · rw [if_neg (by omega)]
    constructor
    · intro h
      exact Or.inr ⟨hp.symm, h⟩
    · rintro (h | ⟨_, h⟩)
      · omega
      · exact h
  · rw [if_pos (by omega)]
    constructor
    · intro h
      simp only [decide_eq_false_iff_not] at h
      exact Or.inl (by omega)
    · rintro (h | ⟨h, _⟩)
      · simp only [decide_eq_false_iff_not]
        omega
      · omega

instance : IsTotal (Exercise × Nat) candLe := by
  constructor
  intro a b
  rw [candLe_iff, candLe_iff]
  by_cases hp : a.2 = b.2
  · by_cases hn : charListLt b.1.name.data a.1.name.data = false
    · exact Or.inl (Or.inr ⟨hp, hn⟩)
    · refine Or.inr (Or.inr ⟨hp.symm, ?_⟩)
      exact charListLt_asymm _ _ (by simpa using hn)
  · rcases Nat.lt_or_ge a.2 b.2 with h | h
    · exact Or.inr (Or.inl h)
    · exact Or.inl (Or.inl (by omega))

instance : IsTrans (Exercise × Nat) candLe := by
  constructor
  intro a b c hab hbc
  rw [candLe_iff] at *
  rcases hab with h1 | ⟨h1, hn1⟩ <;> rcases hbc with h2 | ⟨h2, hn2⟩
  · exact Or.inl (by omega)
  · exact Or.inl (by omega)
  · exact Or.inl (by omega)
  · exact Or.inr ⟨by omega, charListLt_negtrans _ _ _ hn1 hn2⟩

theorem sortCands_sorted (l : List (Exercise × Nat)) :
    List.Sorted candLe (sortCands l) :=
  List.sorted_insertionSort candLe l

theorem sortCands_perm (l : List (Exercise × Nat)) :
    (sortCands l).Perm l :=
  List.perm_insertionSort candLe l

/-! ### Claim theorems -/

/-- C2: for every workout list and every window, `analyzeMuscleGroups`
returns a map whose key sequence is exactly the 17 canonical muscle
groups, each present even when absent from the data, and no other key —
in particular never `neck`. -/
theorem c2_canonical_keys (today : Int) (ws : List Workout) (tp : TimePeriod) :
    (analyzeMuscleGroups today ws tp).map Prod.fst = MAJOR_MUSCLE_GROUPS
    ∧ MuscleGroup.neck ∉ (analyzeMuscleGroups today ws tp).map Prod.fst
    ∧ MAJOR_MUSCLE_GROUPS.length = 17
    ∧ ∀ g ∈ MAJOR_MUSCLE_GROUPS,
        (statsGet (analyzeMuscleGroups today ws tp) g).isSome := by
  have hk : (analyzeMuscleGroups today ws tp).map Prod.fst
      = MAJOR_MUSCLE_GROUPS := by
    unfold analyzeMuscleGroups
    rw [keys_foldl_processWorkout]
    unfold initStats
    rw [List.map_map]
    rfl
  refine ⟨hk, ?_, by decide, ?_⟩
  · rw [hk]
    decide
  · intro g hg
    rw [← hk] at hg
    obtain ⟨p, hp, hfst⟩ := List.mem_map.1 hg
    rw [← hfst]
    exact statsGet_isSome_of_mem _ p hp

/-- C3: the analysis cutoff is `today` minus the window at calendar-day
granularity with an inclusive boundary: a workout dated exactly on the
cutoff (or later) is processed in full, and a workout dated strictly
before the cutoff contributes nothing wherever it sits in the list. -/
theorem c3_cutoff_boundary (today : Int) (tp : TimePeriod) (stats : StatsMap)
    (w : Workout) (ws1 ws2 : List Workout) :
    (w.date < today - tp.days →
      analyzeMuscleGroups today (ws1 ++ w :: ws2) tp
        = analyzeMuscleGroups today (ws1 ++ ws2) tp)
    ∧ (today - tp.days ≤ w.date →
      processWorkout (today - tp.days) stats w
        = w.exercises.foldl (fun s ex => processExercise w.date ex s) stats)
    ∧ analyzeMuscleGroups today (ws1 ++ w :: ws2) tp
        = (ws1 ++ w :: ws2).foldl (processWorkout (today - tp.days)) initStats := by
  refine ⟨?_, ?_, rfl⟩
  · intro h
    unfold analyzeMuscleGroups
    rw [List.foldl_append, List.foldl_append, List.foldl_cons]
    have hskip : processWorkout (today - tp.days)
        (ws1.foldl (processWorkout (today - tp.days)) initStats) w
        = ws1.foldl (processWorkout (today - tp.days)) initStats := by
      unfold processWorkout
      rw [if_pos h]
    rw [hskip]
  · intro h
    unfold processWorkout
    rw [if_neg (not_lt.2 h)]

/-- C5: `getUnderworkedMuscles` returns exactly the muscle groups whose
stat has no last-worked date or one strictly before `today - 7`, in the
stats map's iteration order, and every returned group indeed satisfies
that condition (so a group last worked within the 7-day window is never
returned). -/
theorem c5_underworked (today : Int) (stats : StatsMap) :
    getUnderworkedMuscles today stats
      = (stats.filter (fun p =>
          match p.2.lastWorkedDate with
          | none => true
          | some d => decide (d < today - 7))).map Prod.fst
    ∧ ∀ mg ∈ getUnderworkedMuscles today stats,
        ∃ s, (mg, s) ∈ stats
          ∧ (s.lastWorkedDate = none
             ∨ ∃ d, s.lastWorkedDate = some d ∧ d < today - 7) := by
  have hfilter : getUnderworkedMuscles today stats
      = (stats.filter (fun p =>
          match p.2.lastWorkedDate with
          | none => true
          | some d => decide (d < today - 7))).map Prod.fst := by
    induction stats with
    | nil => rfl
    | cons p rest ih =>
      unfold getUnderworkedMuscles at *
      rw [List.filterMap_cons, List.filter_cons]
      cases hld : p.2.lastWorkedDate with
      | none => simp [hld, ih]
      | some d =>
        by_cases hd : d < today - 7
        · simp [hld, hd, ih]
        · simp [hld, hd, ih]
  refine ⟨hfilter, ?_⟩
  intro mg hmg
  rw [hfilter] at hmg
  obtain ⟨p, hp, hfst⟩ := List.mem_map.1 hmg
  have hmem := List.mem_of_mem_filter hp
  have hcond := List.of_mem_filter hp
  refine ⟨p.2, by rw [← hfst]; exact hmem, ?_⟩
  cases hld : p.2.lastWorkedDate with
  | none => exact Or.inl rfl
  | some d =>
    right
    refine ⟨d, rfl, ?_⟩
    rw [hld] at hcond
    simpa using hcond

/-- C9: `analyzeMuscleGroups` is order-independent in its workout list:
permuting the input yields the identical stats map, hence the same
engagement count, exercise count and last-worked date for every muscle
group. -/
theorem c9_order_independence (today : Int) (tp : TimePeriod)
    (ws ws' : List Workout) (h : ws.Perm ws') :
    analyzeMuscleGroups today ws tp = analyzeMuscleGroups today ws' tp
    ∧ ∀ g, statsGet (analyzeMuscleGroups today ws tp) g
        = statsGet (analyzeMuscleGroups today ws' tp) g := by
  have main : analyzeMuscleGroups today ws tp
      = analyzeMuscleGroups today ws' tp := by
    unfold analyzeMuscleGroups
    exact foldl_perm_of_comm (processWorkout (today - tp.days))
      (fun b x y => processWorkout_comm (today - tp.days) b x y) h initStats
  exact ⟨main, fun g => by rw [main]⟩

/-- C10: `normalizeMuscleGroup` maps the empty string — and any string
that normalizes to the empty string — to `chest`: the substring fallback
`key.includes("")` holds vacuously for every alias key, so the first
table entry wins; consequently an empty or whitespace-only entry in a
muscle list classifies as chest instead of being discarded. -/
theorem c10_empty_normalizes_chest :
    normalizeMuscleGroup "" = some MuscleGroup.chest
    ∧ (∀ s : String, jsTrim (jsToLower s) = "" →
        normalizeMuscleGroup s = some MuscleGroup.chest)
    ∧ (getMuscleGroupsFromExercise ["", "   "] []).1
        = [MuscleGroup.chest, MuscleGroup.chest] := by
  refine ⟨by decide, ?_, by decide⟩
  intro s h
  unfold normalizeMuscleGroup
  rw [h]
  decide

/-- C1: each exercise of an included workout contributes an engagement
weight equal to its set volume (sum of reps times weight) divided by
1000, falling back to the flat weight 1 when that normalized volume is
zero; processing the exercise adds the full weight once per primary
occurrence and half the weight once per secondary occurrence of a muscle
group to that group's engagement count. -/
theorem c1_engagement_weight (d : Int) (ex : WorkoutExercise)
    (stats : StatsMap) (k : MuscleGroup) (s : MuscleGroupStats)
    (hw : ∀ st ∈ ex.sets, 0 ≤ st.weight) :
    engagementValue ex
        = (if exerciseVolume ex / 1000 = 0 then 1 else exerciseVolume ex / 1000)
    ∧ processExercise d ex stats = mapStats (exEff d ex) stats
    ∧ (exEff d ex k s).engagementCount
        = s.engagementCount
          + ((getMuscleGroupsFromExercise ex.primaryMuscles
              ex.secondaryMuscles).1.count k : ℚ) * engagementValue ex
          + ((getMuscleGroupsFromExercise ex.primaryMuscles
              ex.secondaryMuscles).2.count k : ℚ) * (engagementValue ex / 2)
    ∧ ∀ (today : Int) (tp : TimePeriod) (ws : List Workout),
        analyzeMuscleGroups today ws tp
          = ws.foldl (processWorkout (today - tp.days)) initStats := by
  have hvol : 0 ≤ exerciseVolume ex := by
    unfold exerciseVolume
    have key : ∀ (l : List SetEntry), (∀ st ∈ l, 0 ≤ st.weight) →
        ∀ init : ℚ, 0 ≤ init →
          0 ≤ l.foldl (fun sum s => sum + (s.reps : ℚ) * s.weight) init := by
      intro l
      induction l with
      | nil => intro _ init hinit; simpa using hinit
      | cons a l ih =>
        intro h init hinit
        rw [List.foldl_cons]
        refine ih (fun st hst => h st (List.mem_cons_of_mem _ hst)) _ ?_
        have ha : 0 ≤ a.weight := h a (List.mem_cons_self _ _)
        positivity
    exact key ex.sets hw 0 le_rfl
  refine ⟨?_, processExercise_map d ex stats, ?_, fun _ _ _ => rfl⟩
  · unfold engagementValue
    have hnv : 0 ≤ exerciseVolume ex / 1000 := by positivity
    by_cases h : exerciseVolume ex / 1000 = 0
    · rw [if_pos h, h]
      simp
    · have hpos : 0 < exerciseVolume ex / 1000 := lt_of_le_of_ne hnv (Ne.symm h)
      rw [if_neg h, if_pos hpos]
  · unfold exEff secEffN primEffN
    simp only

/-- C6: `getHeatmapIntensity` is the boundary-inclusive step function with
window-scaled thresholds 7 ↦ (6, 2), 14 ↦ (12, 4), 30 ↦ (24, 8), mapping
engagement at or above the hot threshold to 1, at or above the warm
threshold to 0.6, strictly positive engagement to 0.3 and anything else
to 0; `getHeatmapColor` maps intensity ≥ 0.8 to the hot color, ≥ 0.5 to
warm, ≥ 0.2 to cool and anything lower to cold; in particular engagement
exactly 6 under window 7 yields intensity 1 (hot) and exactly 2 yields
0.6 (warm). -/
theorem c6_heatmap_steps (stat : MuscleGroupStats) (tp : TimePeriod) (i : ℚ) :
    (heatmapThresholds .d7 = (6, 2) ∧ heatmapThresholds .d14 = (12, 4)
      ∧ heatmapThresholds .d30 = (24, 8))
    ∧ (stat.engagementCount ≥ (heatmapThresholds tp).1 →
        getHeatmapIntensity stat tp = 1)
    ∧ (¬ stat.engagementCount ≥ (heatmapThresholds tp).1 →
        stat.engagementCount ≥ (heatmapThresholds tp).2 →
        getHeatmapIntensity stat tp = 6 / 10)
    ∧ (¬ stat.engagementCount ≥ (heatmapThresholds tp).2 →
        stat.engagementCount > 0 →
        getHeatmapIntensity stat tp = 3 / 10)
    ∧ (¬ stat.engagementCount > 0 → getHeatmapIntensity stat tp = 0)
    ∧ (i ≥ 8 / 10 → getHeatmapColor i = "#ef4444")
    ∧ (¬ i ≥ 8 / 10 → i ≥ 5 / 10 → getHeatmapColor i = "#f97316")
    ∧ (¬ i ≥ 5 / 10 → i ≥ 2 / 10 → getHeatmapColor i = "#eab308")
    ∧ (¬ i ≥ 2 / 10 → getHeatmapColor i = "#3b82f6")
    ∧ getHeatmapIntensity ⟨.chest, 6, none, 0⟩ .d7 = 1
    ∧ getHeatmapIntensity ⟨.chest, 2, none, 0⟩ .d7 = 6 / 10
    ∧ getHeatmapColor (getHeatmapIntensity ⟨.chest, 6, none, 0⟩ .d7)
        = "#ef4444"
    ∧ getHeatmapColor (getHeatmapIntensity ⟨.chest, 2, none, 0⟩ .d7)
        = "#f97316" := by
  have hwarm_pos : (0 : ℚ) < (heatmapThresholds tp).2 := by
    cases tp <;> norm_num [heatmapThresholds]
  refine ⟨⟨rfl, rfl, rfl⟩, ?_, ?_, ?_, ?_, ?_, ?_, ?_, ?_, ?_, ?_, ?_, ?_⟩
  · intro h
    unfold getHeatmapIntensity
    rw [if_pos h]
  · intro h1 h2
    unfold getHeatmapIntensity
    rw [if_neg h1, if_pos h2]
  · intro h2 hpos
    unfold getHeatmapIntensity
    have h1 : ¬ stat.engagementCount ≥ (heatmapThresholds tp).1 := by
      intro h1
      apply h2
      have : (heatmapThresholds tp).2 ≤ (heatmapThresholds tp).1 := by
        cases tp <;> norm_num [heatmapThresholds]
      linarith
    rw [if_neg h1, if_neg h2, if_pos hpos]
  · intro hpos
    unfold getHeatmapIntensity
    have h2 : ¬ stat.engagementCount ≥ (heatmapThresholds tp).2 := by
      intro h2
      exact hpos (by linarith)
    have h1 : ¬ stat.engagementCount ≥ (heatmapThresholds tp).1 := by
      intro h1
      apply h2
      have : (heatmapThresholds tp).2 ≤ (heatmapThresholds tp).1 := by
        cases tp <;> norm_num [heatmapThresholds]
      linarith
    rw [if_neg h1, if_neg h2, if_neg hpos]
  · intro h
    unfold getHeatmapColor
    rw [if_pos h]
  · intro h1 h2
    unfold getHeatmapColor
    rw [if_neg h1, if_pos h2]
  · intro h2 h3
    unfold getHeatmapColor
    have h1 : ¬ i ≥ 8 / 10 := by
      intro h1
      exact h2 (by linarith)
    rw [if_neg h1, if_neg h2, if_pos h3]
  · intro h3
    unfold getHeatmapColor
    have h2 : ¬ i ≥ 5 / 10 := by
      intro h2
      exact h3 (by linarith)
    have h1 : ¬ i ≥ 8 / 10 := by
      intro h1
      exact h2 (by linarith)
    rw [if_neg h1, if_neg h2, if_neg h3]
  · norm_num [getHeatmapIntensity, heatmapThresholds]
  · norm_num [getHeatmapIntensity, heatmapThresholds]
  · norm_num [getHeatmapIntensity, getHeatmapColor, heatmapThresholds]
  · norm_num [getHeatmapIntensity, getHeatmapColor, heatmapThresholds]

/-- C4 (code bug evaluation): an exercise whose primary list names chest
through two aliases increments chest's exercise counter twice within one
exercise — the primary loop has no first-touch guard — while the joint
primary/secondary guard does hold when the same group appears once in
each list. -/
theorem c4_exercise_count_eval :
    (statsGet (analyzeMuscleGroups 0 [⟨1, 0, [dupChestEx]⟩] .d7)
        MuscleGroup.chest).map (fun s => (s.workouts, s.lastWorkedDate))
      = some (2, some 0)
    ∧ (getMuscleGroupsFromExercise dupChestEx.primaryMuscles
        dupChestEx.secondaryMuscles).1
        = [MuscleGroup.chest, MuscleGroup.chest]
    ∧ (statsGet (analyzeMuscleGroups 0 [⟨2, 0, [bothListsEx]⟩] .d7)
        MuscleGroup.chest).map (fun s => s.workouts)
      = some 1 := by
  refine ⟨by decide, by decide, by decide⟩

theorem matching_eq (mg : MuscleGroup) (db : List Exercise) :
    matchingExercisesFor mg db
      = (db.filter (qualifies mg)).map (fun e => (e, exercisePriority mg e)) := by
  induction db with
  | nil => rfl
  | cons e db ih =>
    unfold matchingExercisesFor at *
    rw [List.filterMap_cons, List.filter_cons]
    by_cases h : mg ∈ (getMuscleGroupsFromExercise e.primaryMuscles
        e.secondaryMuscles).1
      ∨ mg ∈ (getMuscleGroupsFromExercise e.primaryMuscles
        e.secondaryMuscles).2
    · rw [if_pos h]
      have hq : qualifies mg e = true := by
        unfold qualifies
        exact decide_eq_true h
      rw [hq]
      simp only [if_pos, if_true, List.map_cons]
      rw [ih]
      unfold exercisePriority
      rfl
    · rw [if_neg h]
      have hq : qualifies mg e = false := by
        unfold qualifies
        exact decide_eq_false h
      rw [hq]
      simp only [Bool.false_eq_true, if_false]
      exact ih

theorem mem_generateSuggestions (targets : List MuscleGroup)
    (db : List Exercise) (limit : Nat) (s : Suggestion)
    (hs : s ∈ generateSuggestions targets db limit) :
    s.muscleGroup ∈ targets
    ∧ matchingExercisesFor s.muscleGroup db ≠ []
    ∧ s.exercises
        = ((sortCands (matchingExercisesFor s.muscleGroup db)).take limit).map
            Prod.fst
    ∧ s.reason = suggestionReason s.muscleGroup := by
  unfold generateSuggestions at hs
  obtain ⟨g, hg, hf⟩ := List.mem_filterMap.1 hs
  simp only at hf
  by_cases hlen : 0 <
      (((sortCands (matchingExercisesFor g db)).take limit).map Prod.fst).length
  · rw [if_pos hlen] at hf
    have hsval := Option.some.inj hf
    subst hsval
    refine ⟨hg, ?_, rfl, rfl⟩
    intro hempty
    rw [hempty] at hlen
    have : sortCands ([] : List (Exercise × Nat)) = [] := rfl
    rw [this] at hlen
    simp at hlen
  · rw [if_neg hlen] at hf
    cases hf

/-- C7: for each target muscle group, `generateSuggestions` selects
exactly the catalog exercises whose normalized primary or secondary
muscles contain the group, tags primary membership with the higher
priority, orders candidates by priority descending then name ascending
under the total stable comparator, and emits no suggestion for a group
with no qualifying exercise. -/
theorem c7_suggestion_ranking (targets : List MuscleGroup)
    (db : List Exercise) (limit : Nat) (mg : MuscleGroup) :
    matchingExercisesFor mg db
        = (db.filter (qualifies mg)).map (fun e => (e, exercisePriority mg e))
    ∧ List.Sorted candLe (sortCands (matchingExercisesFor mg db))
    ∧ (sortCands (matchingExercisesFor mg db)).Perm
        (matchingExercisesFor mg db)
    ∧ (∀ a b : Exercise × Nat, candLe a b
        ↔ b.2 < a.2
          ∨ (a.2 = b.2 ∧ charListLt b.1.name.data a.1.name.data = false))
    ∧ (∀ s ∈ generateSuggestions targets db limit,
        s.muscleGroup ∈ targets
        ∧ matchingExercisesFor s.muscleGroup db ≠ []
        ∧ s.exercises
            = ((sortCands (matchingExercisesFor s.muscleGroup db)).take
                limit).map Prod.fst
        ∧ s.reason = suggestionReason s.muscleGroup)
    ∧ (db.filter (qualifies mg) = [] →
        ∀ s ∈ generateSuggestions targets db limit, s.muscleGroup ≠ mg) := by
  refine ⟨matching_eq mg db, sortCands_sorted _, sortCands_perm _, candLe_iff,
    fun s hs => mem_generateSuggestions targets db limit s hs, ?_⟩
  intro hempty s hs heq
  have hstruct := mem_generateSuggestions targets db limit s hs
  apply hstruct.2.1
  rw [heq, matching_eq, hempty]
  rfl

/-- C8 counterexample: with a catalog that contains the same exercise
twice, the suggestion for chest lists that exercise twice, so the claim's
no-duplicates guarantee fails as stated for arbitrary catalogs. -/
theorem c8_duplicate_counterexample :
    (generateSuggestions [MuscleGroup.chest] [benchExercise, benchExercise]
        5).map Suggestion.exercises
      = [[benchExercise, benchExercise]]
    ∧ ¬ ([benchExercise, benchExercise] : List Exercise).Nodup := by
  refine ⟨by decide, by decide⟩

/-- C8 (amended): every suggestion holds at most `limitPerGroup`
exercises; and provided no two catalog entries share a name, no exercise
is repeated within one group's suggestion list. -/
theorem c8_limit_nodup (targets : List MuscleGroup) (db : List Exercise)
    (limit : Nat) (s : Suggestion)
    (hs : s ∈ generateSuggestions targets db limit) :
    s.exercises.length ≤ limit
    ∧ ((db.map Exercise.name).Nodup → (s.exercises.map Exercise.name).Nodup) := by
  obtain ⟨-, -, hex, -⟩ := mem_generateSuggestions targets db limit s hs
  constructor
  · rw [hex, List.length_map]
    have := List.length_take limit (sortCands (matchingExercisesFor s.muscleGroup db))
    omega
  · intro hn
    have hfil : ((db.filter (qualifies s.muscleGroup)).map Exercise.name).Nodup :=
      hn.sublist (List.Sublist.map _ (List.filter_sublist db))
    have hmatch : ((matchingExercisesFor s.muscleGroup db).map
        (fun p => p.1.name)).Nodup := by
      rw [matching_eq, List.map_map]
      exact hfil
    have hsorted : ((sortCands (matchingExercisesFor s.muscleGroup db)).map
        (fun p => p.1.name)).Nodup :=
      ((sortCands_perm (matchingExercisesFor s.muscleGroup db)).map
        (fun p => p.1.name)).nodup_iff.2 hmatch
    have htake : (((sortCands (matchingExercisesFor s.muscleGroup db)).take
        limit).map (fun p => p.1.name)).Nodup :=
      hsorted.sublist (List.Sublist.map _ (List.take_sublist _ _))
    rw [hex, List.map_map]
    exact htake

/-! ### Witnesses -/

/-- Witness for C1 at a concrete exercise with one 10-rep set at
weight 100. -/
theorem c1_engagement_weight_witness :
    (∀ st ∈ benchW.sets, 0 ≤ st.weight)
    ∧ (exEff 0 benchW MuscleGroup.chest statChest0).engagementCount
        = statChest0.engagementCount
          + ((getMuscleGroupsFromExercise benchW.primaryMuscles
              benchW.secondaryMuscles).1.count MuscleGroup.chest : ℚ)
              * engagementValue benchW
          + ((getMuscleGroupsFromExercise benchW.primaryMuscles
              benchW.secondaryMuscles).2.count MuscleGroup.chest : ℚ)
              * (engagementValue benchW / 2) :=
  ⟨by decide,
   (c1_engagement_weight 0 benchW initStats MuscleGroup.chest statChest0
     (by decide)).2.2.1⟩

/-- Witness for C2 at the empty workout list. -/
theorem c2_canonical_keys_witness :
    (analyzeMuscleGroups 0 [] .d7).map Prod.fst = MAJOR_MUSCLE_GROUPS
    ∧ MuscleGroup.neck ∉ (analyzeMuscleGroups 0 [] .d7).map Prod.fst :=
  ⟨(c2_canonical_keys 0 [] .d7).1, (c2_canonical_keys 0 [] .d7).2.1⟩

/-- Witness for C3: with today 10 and window 7, a workout dated day 2
(strictly before the cutoff 3) contributes nothing, and one dated day 3
(exactly the cutoff) is processed in full. -/
theorem c3_cutoff_boundary_witness :
    ((⟨1, 2, []⟩ : Workout).date < 10 - TimePeriod.d7.days)
    ∧ analyzeMuscleGroups 10 [⟨1, 2, []⟩] .d7 = analyzeMuscleGroups 10 [] .d7
    ∧ (10 - TimePeriod.d7.days ≤ (⟨2, 3, []⟩ : Workout).date)
    ∧ processWorkout (10 - TimePeriod.d7.days) initStats ⟨2, 3, []⟩
        = (⟨2, 3, []⟩ : Workout).exercises.foldl
            (fun s ex => processExercise (⟨2, 3, []⟩ : Workout).date ex s)
            initStats :=
  ⟨by decide,
   (c3_cutoff_boundary 10 .d7 initStats ⟨1, 2, []⟩ [] []).1 (by decide),
   by decide,
   (c3_cutoff_boundary 10 .d7 initStats ⟨2, 3, []⟩ [] []).2.1 (by decide)⟩

/-- Witness for C5: with today 10, chest (last worked day 0) is reported
underworked in the fixture stats, with its date strictly before day 3. -/
theorem c5_underworked_witness :
    ∃ s, (MuscleGroup.chest, s) ∈ statsExample
      ∧ (s.lastWorkedDate = none
         ∨ ∃ d, s.lastWorkedDate = some d ∧ d < 10 - 7) :=
  (c5_underworked 10 statsExample).2 MuscleGroup.chest (by decide)

/-- Witness for C6: engagement exactly 6 under window 7 meets the hot
threshold and yields intensity 1. -/
theorem c6_heatmap_steps_witness :
    ((⟨.chest, 6, none, 0⟩ : MuscleGroupStats).engagementCount
        ≥ (heatmapThresholds .d7).1)
    ∧ getHeatmapIntensity ⟨.chest, 6, none, 0⟩ .d7 = 1 :=
  ⟨by decide,
   (c6_heatmap_steps ⟨.chest, 6, none, 0⟩ .d7 0).2.1 (by decide)⟩

/-- Witness for C7 at a three-exercise catalog: the chest suggestion
exists, in priority-then-name order, and satisfies the structural
characterization. -/
theorem c7_suggestion_ranking_witness :
    ((⟨MuscleGroup.chest, [benchExercise, flyeExercise, dipExercise],
        suggestionReason MuscleGroup.chest⟩ : Suggestion)
      ∈ generateSuggestions [MuscleGroup.chest]
          [flyeExercise, dipExercise, benchExercise] 5)
    ∧ (MuscleGroup.chest ∈ [MuscleGroup.chest]
       ∧ matchingExercisesFor MuscleGroup.chest
           [flyeExercise, dipExercise, benchExercise] ≠ []
       ∧ [benchExercise, flyeExercise, dipExercise]
           = ((sortCands (matchingExercisesFor MuscleGroup.chest
               [flyeExercise, dipExercise, benchExercise])).take 5).map
               Prod.fst
       ∧ suggestionReason MuscleGroup.chest
           = suggestionReason MuscleGroup.chest) :=
  ⟨by decide,
   (c7_suggestion_ranking [MuscleGroup.chest]
     [flyeExercise, dipExercise, benchExercise] 5
     MuscleGroup.chest).2.2.2.2.1
     ⟨MuscleGroup.chest, [benchExercise, flyeExercise, dipExercise],
       suggestionReason MuscleGroup.chest⟩ (by decide)⟩

/-- Witness for C8 (amended) at a one-exercise catalog with distinct
names. -/
theorem c8_limit_nodup_witness :
    ((⟨MuscleGroup.chest, [benchExercise],
        suggestionReason MuscleGroup.chest⟩ : Suggestion)
      ∈ generateSuggestions [MuscleGroup.chest] [benchExercise] 5)
    ∧ ([benchExercise].map Exercise.name).Nodup
    ∧ ([benchExercise] : List Exercise).length ≤ 5
    ∧ (([benchExercise] : List Exercise).map Exercise.name).Nodup := by
  refine ⟨by decide, by decide, ?_, ?_⟩
  · exact (c8_limit_nodup [MuscleGroup.chest] [benchExercise] 5
      ⟨MuscleGroup.chest, [benchExercise],
        suggestionReason MuscleGroup.chest⟩ (by decide)).1
  · exact (c8_limit_nodup [MuscleGroup.chest] [benchExercise] 5
      ⟨MuscleGroup.chest, [benchExercise],
        suggestionReason MuscleGroup.chest⟩ (by decide)).2 (by decide)

/-- Witness for C9 at a concrete two-workout swap. -/
theorem c9_order_independence_witness :
    ([(⟨1, 0, [benchW]⟩ : Workout), ⟨2, 1, [dupChestEx]⟩].Perm
        [(⟨2, 1, [dupChestEx]⟩ : Workout), ⟨1, 0, [benchW]⟩])
    ∧ analyzeMuscleGroups 0 [⟨1, 0, [benchW]⟩, ⟨2, 1, [dupChestEx]⟩] .d7
        = analyzeMuscleGroups 0 [⟨2, 1, [dupChestEx]⟩, ⟨1, 0, [benchW]⟩] .d7 :=
  ⟨by decide, (c9_order_independence 0 .d7 _ _ (by decide)).1⟩

/-- Witness for C10 at a whitespace-only muscle name. -/
theorem c10_empty_normalizes_chest_witness :
    jsTrim (jsToLower "   ") = ""
    ∧ normalizeMuscleGroup "   " = some MuscleGroup.chest :=
  ⟨by decide, c10_empty_normalizes_chest.2.1 "   " (by decide)⟩
